/-
Verification of the tempmail-python library (cubicbyte/tempmail-python).

Shallow embedding of the four source files:
  src/tempmail/__init__.py    (module-level API: get_email, get_inbox,
                               get_message, wait_for_message, _check_message)
  src/tempmail/providers.py   (OneSecMail class)
  src/tempmail/utils.py       (random_string, cache)

Modelling conventions:
  * The HTTP layer is an oracle `Net`: `getMessages login domain k` is the
    JSON the server returns for the k-th inbox poll of a run, and
    `readMessage login domain id` the JSON for one full message.  Every
    network request performed by the code is recorded in a `List Event`
    trace returned alongside the result.
  * Python exceptions become the `PyError` type and fallible operations
    return `Except PyError`.
  * `random.choices(string.ascii_lowercase, k=n)` is modelled by an
    arbitrary index oracle `pick : Nat → Nat` (reduced mod 26), and
    `random.choice(lst)` by an arbitrary index reduced mod the length
    (raising IndexError on an empty list, as in Python).
  * `functools.lru_cache` / `functools.cache` state is threaded explicitly:
    the module-level `_check_message` cache (`functools.cache`, i.e.
    `lru_cache(maxsize=None)`, unbounded) is a `CheckCache` keyed by
    (email, id, filter identity); the `OneSecMail.get_message` cache
    (`utils.cache`, a bare `functools.lru_cache`: maxsize 128 with LRU
    eviction) is a `MsgCache` of cached message ids in recency order (see
    `MsgCache` for why the key set and order describe it fully).  Filter
    callables are identified by a `Nat` tag `fid` (Python keys the cache
    on the callable object itself).
  * `time.time()` is an oracle `clock : Nat → Int` giving the value of the
    n-th call; `time.sleep` only emits a trace event.  Loops that Python
    runs unboundedly are run on explicit fuel: a result of `none` means the
    fuel ran out, `some r` means the call finished with outcome `r`.
-/
import Mathlib

namespace Tempmail

/-- Python exceptions that the embedded code can raise. -/
inductive PyError where
  | valueError (msg : String)
  | timeoutError (msg : String)
  | typeError (msg : String)
  | indexError
  deriving DecidableEq

/-- Observable effects of a run: network requests, predicate evaluations
and sleeps. -/
inductive Event where
  | netGetMessages (login domain : String)
  | netReadMessage (login domain : String) (id : Nat)
  | evalFilter (fid : Nat) (email : String) (id : Nat)
  | sleep
  deriving DecidableEq

/-- Raw JSON object of one attachment inside a readMessage response
(keys "filename", "contentType", "size"). -/
structure RawAttachment where
  filename : String
  contentType : String
  size : Nat
  deriving DecidableEq

/-- Raw JSON object of one entry of a getMessages response
(keys "id", "from", "subject", "date"; `from_addr` stands for the key
"from", which is a reserved word). -/
structure RawMsgInfo where
  id : Nat
  from_addr : String
  subject : String
  date : String
  deriving DecidableEq

/-- Raw JSON object of a readMessage response. -/
structure RawMessage where
  id : Nat
  from_addr : String
  subject : String
  date : String
  body : String
  textBody : String
  htmlBody : String
  attachments : List RawAttachment
  deriving DecidableEq

/-- The network oracle: what the 1secmail server answers.  `getMessages`
additionally takes the poll counter `k` of the running loop so that the
inbox may change between polls. -/
structure Net where
  getMessages : String → String → Nat → List RawMsgInfo
  readMessage : String → String → Nat → RawMessage

/-- providers.py, `OneSecMail.MessageInfo` (a plain `@dataclass`; the
`_mail_instance` back-reference is represented by threading the instance
and its cache explicitly). -/
structure MessageInfo where
  id : Nat
  from_addr : String
  subject : String
  date_str : String
  deriving DecidableEq

/-- providers.py, `OneSecMail.MessageInfo.from_dict`. -/
def MessageInfo.from_dict (d : RawMsgInfo) : MessageInfo :=
  { id := d.id, from_addr := d.from_addr, subject := d.subject,
    date_str := d.date }

/-- providers.py, `OneSecMail.Message` (a plain `@dataclass`;
`attachmentsRaw` is the private `_attachments` field). -/
structure Message where
  id : Nat
  from_addr : String
  subject : String
  date_str : String
  body : String
  text_body : String
  html_body : String
  attachmentsRaw : List RawAttachment
  deriving DecidableEq

/-- providers.py, `OneSecMail.Message.from_dict`. -/
def Message.from_dict (d : RawMessage) : Message :=
  { id := d.id, from_addr := d.from_addr, subject := d.subject,
    date_str := d.date, body := d.body, text_body := d.textBody,
    html_body := d.htmlBody, attachmentsRaw := d.attachments }

/-- providers.py, `OneSecMail.Attachment` (a plain `@dataclass`;
`message_id` is the private `_message_id` field). -/
structure Attachment where
  filename : String
  content_type : String
  size : Nat
  message_id : Nat
  deriving DecidableEq

/-- providers.py, `OneSecMail.Attachment.from_dict`. -/
def Attachment.from_dict (message_id : Nat) (d : RawAttachment) : Attachment :=
  { filename := d.filename, content_type := d.contentType, size := d.size,
    message_id := message_id }

/-- Arguments of Python's `@dataclass` decorator that matter here
(defaults: `eq=True`, `frozen=False`).  `frozen=False` means `__setattr__`
is the default one, so assigning to a field of an instance succeeds. -/
structure DataclassOptions where
  eq : Bool
  frozen : Bool
  deriving DecidableEq

/-- `OneSecMail.MessageInfo` is declared with a bare `@dataclass`. -/
def messageInfoOptions : DataclassOptions := { eq := true, frozen := false }

/-- `OneSecMail.Message` is declared with a bare `@dataclass`. -/
def messageOptions : DataclassOptions := { eq := true, frozen := false }

/-- `OneSecMail.Attachment` is declared with a bare `@dataclass`. -/
def attachmentOptions : DataclassOptions := { eq := true, frozen := false }

/-- Semantics of Python attribute assignment `obj.id = v` on a dataclass
instance: on a frozen dataclass it raises FrozenInstanceError (modelled as
a typeError), otherwise it mutates the field. -/
def MessageInfo.pySetId (opts : DataclassOptions) (m : MessageInfo)
    (v : Nat) : Except PyError MessageInfo :=
  if opts.frozen then .error (.typeError "FrozenInstanceError")
  else .ok { m with id := v }

/-- Python `s.split(sep)` for a one-character separator, on the character
list of the string.  `''.split('@') == ['']`, `'a@b'.split('@') == ['a','b']`,
`'@'.split('@') == ['', '']`. -/
def pySplitAux (sep : Char) : List Char → List (List Char)
  | [] => [[]]
  | c :: cs =>
    match pySplitAux sep cs with
    | [] => if c = sep then [[], []] else [[c]]
    | h :: t => if c = sep then [] :: h :: t else (c :: h) :: t

/-- Python `s.split(sep)` for a one-character separator. -/
def pySplit (s : String) (sep : Char) : List String :=
  (pySplitAux sep s.data).map fun l => String.mk l

/-- Python `username, domain = s.split('@')`: raises ValueError unless the
split yields exactly two parts (the two Python unpacking error messages are
collapsed into the one message "unpack"). -/
def splitUnpack2 (s : String) : Except PyError (String × String) :=
  match pySplit s '@' with
  | [u, d] => .ok (u, d)
  | _ => .error (.valueError "unpack")

/-- Number of '@' characters in a string. -/
def atCount (s : String) : Nat := s.data.countP (fun c => c = '@')

/-- __init__.py, the `DOMAINS` constant. -/
def DOMAINS : List String :=
  ["1secmail.com", "1secmail.org", "1secmail.net", "kzccv.com",
   "qiott.com", "wuuvo.com", "icznn.com", "ezztt.com"]

/-- utils.py, `string.ascii_lowercase`. -/
def ascii_lowercase : List Char := "abcdefghijklmnopqrstuvwxyz".data

/-- utils.py, `random_string(length)`:
`''.join(random.choices(string.ascii_lowercase, k=length))`, the random
draws being modelled by the index oracle `pick`. -/
def random_string (pick : Nat → Nat) (length : Nat) : String :=
  String.mk ((List.range length).map fun i =>
    ascii_lowercase.get ⟨pick i % ascii_lowercase.length, Nat.mod_lt _ (by decide)⟩)

/-- __init__.py, `get_email(username=None, domain=None)`.  `domIdx` models
the draw of `random.choice(DOMAINS)`. -/
def get_email (pick : Nat → Nat) (domIdx : Nat)
    (username domain : Option String) : String :=
  (match username with
   | none => random_string pick 10
   | some u => u)
  ++ "@" ++
  (match domain with
   | none => DOMAINS.get ⟨domIdx % DOMAINS.length, Nat.mod_lt _ (by decide)⟩
   | some d => d)

/-- __init__.py, `get_inbox(email)`.  `k` is the poll counter handed to the
inbox oracle. -/
def get_inbox (net : Net) (k : Nat) (email : String) :
    Except PyError (List RawMsgInfo) × List Event :=
  match splitUnpack2 email with
  | .error e => (.error e, [])
  | .ok (username, domain) =>
    if domain ∈ DOMAINS then
      (.ok (net.getMessages username domain k),
       [.netGetMessages username domain])
    else
      (.error (.valueError ("Invalid domain: " ++ domain)), [])

/-- __init__.py, `get_message(email, id)` (note: not memoized). -/
def get_message (net : Net) (email : String) (id : Nat) :
    Except PyError RawMessage × List Event :=
  match splitUnpack2 email with
  | .error e => (.error e, [])
  | .ok (username, domain) =>
    if domain ∈ DOMAINS then
      (.ok (net.readMessage username domain id),
       [.netReadMessage username domain id])
    else
      (.error (.valueError ("Invalid domain: " ++ domain)), [])

/-- Association-list lookup with decidable key equality (the embedding of a
`functools.lru_cache` table). -/
def alookup {α β : Type} [DecidableEq α] : List (α × β) → α → Option β
  | [], _ => none
  | (k, v) :: rest, a => if k = a then some v else alookup rest a

/-- Cache key of `_check_message`: the argument triple
(email, message id, filter identity). -/
abbrev CheckKey := String × Nat × Nat

/-- The `functools.cache` table of `_check_message`. -/
abbrev CheckCache := List (CheckKey × (Bool × RawMessage))

/-- __init__.py, `_check_message(email, id, filter)` decorated with
`@cache`: on a cache hit the stored pair is returned without effects; on a
miss the module-level `get_message` fetches the message, the filter is
evaluated once, and the pair is stored. -/
def check_message (net : Net) (fid : Nat) (f : RawMessage → Bool)
    (email : String) (id : Nat) (st : CheckCache) :
    Except PyError (Bool × RawMessage) × CheckCache × List Event :=
  match alookup st (email, id, fid) with
  | some r => (.ok r, st, [])
  | none =>
    match get_message net email id with
    | (.error e, evs) => (.error e, st, evs)
    | (.ok msg, evs) =>
      let r := (f msg, msg)
      (.ok r, ((email, id, fid), r) :: st, evs ++ [.evalFilter fid email id])

/-- The inner `for msg_info in resp` loop of the module-level
`wait_for_message`: run `_check_message` on each listed summary in order
and stop at the first one whose filter evaluates to true (an empty listing
matches the `if resp:` guard falling through). -/
def scan_listing (net : Net) (fid : Nat) (f : RawMessage → Bool)
    (email : String) :
    List RawMsgInfo → CheckCache →
      Option (Except PyError RawMessage) × CheckCache × List Event
  | [], st => (none, st, [])
  | mi :: rest, st =>
    match check_message net fid f email mi.id st with
    | (.error e, st1, evs) => (some (.error e), st1, evs)
    | (.ok (status, msg), st1, evs) =>
      if status then (some (.ok msg), st1, evs)
      else
        match scan_listing net fid f email rest st1 with
        | (r, st2, evs2) => (r, st2, evs ++ evs2)

/-- The loop condition `timeout is None or time.time() < timeout_time` of
the module-level `wait_for_message`: when `timeout` is an int but
`timeout_time` is `None` (which the code reaches for `timeout == 0`) the
comparison `float < None` raises TypeError.  The n-th `time.time()` call
reads `clock n`; call 0 happened when `timeout_time` was computed. -/
def loop_cond (clock : Nat → Int) (timeout timeout_time : Option Int)
    (k : Nat) : Except PyError Bool :=
  match timeout with
  | none => .ok true
  | some _ =>
    match timeout_time with
    | none => .error (.typeError "float < NoneType")
    | some tt => .ok (decide (clock (k + 1) < tt))

/-- The `while` loop of the module-level `wait_for_message`. -/
def wait_loop (net : Net) (clock : Nat → Int) (fid : Nat)
    (f : RawMessage → Bool) (email username domain : String)
    (timeout : Option Int) (timeout_time : Option Int) :
    Nat → Nat → CheckCache →
      Option (Except PyError RawMessage × CheckCache × List Event)
  | _, 0, _ => none
  | k, fuel + 1, st =>
    match loop_cond clock timeout timeout_time k with
    | .error e => some (.error e, st, [])
    | .ok false =>
      some (.error (.timeoutError "Timed out waiting for message"), st, [])
    | .ok true =>
      match scan_listing net fid f email (net.getMessages username domain k) st with
      | (some r, st1, evs) =>
        some (r, st1, Event.netGetMessages username domain :: evs)
      | (none, st1, evs) =>
        match wait_loop net clock fid f email username domain timeout
            timeout_time (k + 1) fuel st1 with
        | none => none
        | some (r, st2, evs2) =>
          some (r, st2,
            Event.netGetMessages username domain :: evs
              ++ [Event.sleep] ++ evs2)

/-- __init__.py, `wait_for_message(email, timeout=60, filter=...)`.  The
line `timeout_time = time.time() + timeout if timeout else None` tests the
truthiness of `timeout`, so both `None` and `0` leave `timeout_time`
unset. -/
def wait_for_message (net : Net) (clock : Nat → Int) (fid : Nat)
    (f : RawMessage → Bool) (email : String) (timeout : Option Int)
    (st : CheckCache) (fuel : Nat) :
    Option (Except PyError RawMessage × CheckCache × List Event) :=
  match splitUnpack2 email with
  | .error e => some (.error e, st, [])
  | .ok (username, domain) =>
    if domain ∈ DOMAINS then
      let timeout_time : Option Int :=
        match timeout with
        | some t => if t = 0 then none else some (clock 0 + t)
        | none => none
      wait_loop net clock fid f email username domain timeout timeout_time
        0 fuel st
    else
      some (.error (.valueError ("Invalid domain: " ++ domain)), st, [])

/-- Python truthiness of `x or alt` for an optional string `x`: `None` and
the empty string are falsy. -/
def pyOrStr (o : Option String) (alt : String) : String :=
  match o with
  | none => alt
  | some s => if s = "" then alt else s

/-- `some s` when the optional string is truthy, `none` otherwise. -/
def pyTruthy (o : Option String) : Option String :=
  match o with
  | none => none
  | some s => if s = "" then none else some s

/-- providers.py, the `OneSecMail` instance state that the claims need:
the two address fields set by `__init__`. -/
structure OneSecMail where
  username : String
  domain : String
  deriving DecidableEq

/-- The first line of `OneSecMail.__init__`: `if address is not None:
username, domain = address.split('@')` overwrites both arguments with the
parts of the address. -/
def initSplit (address username domain : Option String) :
    Except PyError (Option String × Option String) :=
  match address with
  | some a =>
    match splitUnpack2 a with
    | .error e => .error e
    | .ok (u, d) => .ok (some u, some d)
  | none => .ok (username, domain)

/-- providers.py, `OneSecMail.__init__(address, username, domain)`.
`domains` is the allow-list that `get_domains()` returns, `pick` models the
draws of `utils.random_string(10)` and `randIdx` the draw of
`random.choice(self.get_domains())` (IndexError on an empty list).  When
`address` is given both `username` and `domain` are overwritten by its
split; a supplied domain is validated against the allow-list, an absent one
is drawn from it. -/
def OneSecMail.init (domains : List String) (pick : Nat → Nat)
    (randIdx : Nat) (address username domain : Option String) :
    Except PyError OneSecMail :=
  match initSplit address username domain with
  | .error e => .error e
  | .ok (username1, domain1) =>
    -- `if domain is not None and domain not in self.get_domains(): raise`
    if (match domain1 with
        | some d => decide (d ∉ domains)
        | none => false) then
      .error (.valueError ("Invalid domain: " ++ domain1.getD ""))
    else
      -- `self.username = username or utils.random_string(10)`
      -- `self.domain = domain or random.choice(self.get_domains())`
      match pyTruthy domain1 with
      | some d1 => .ok { username := pyOrStr username1 (random_string pick 10),
                         domain := d1 }
      | none =>
        match domains.get? (randIdx % domains.length) with
        | some d1 => .ok { username := pyOrStr username1 (random_string pick 10),
                           domain := d1 }
        | none => .error .indexError

/-- The default `maxsize` of `functools.lru_cache`, which is what the bare
`@functools.lru_cache` inside `utils.cache` uses. -/
def lru_maxsize : Nat := 128

/-- The `functools.lru_cache(maxsize=128)` table of `OneSecMail.get_message`
during one run, as the list of cached message ids in
most-recently-used-first order.  The value stored for an id is always
`Message.from_dict (net.readMessage username domain id)` — the network
oracle is a pure function, so a stored value equals its recomputation and
the cache state is fully described by the key set and its recency order.
(The real table is keyed by the `(self, id)` argument tuple and shared by
all instances; for the single-instance runs stated here the per-instance
view has the same hits, misses and evictions.) -/
abbrev MsgCache := List Nat

/-- providers.py, `OneSecMail.get_message(id)` decorated with
`@utils.cache`, i.e. a bare `@functools.lru_cache` (maxsize 128, LRU): a
hit returns the cached `Message` without effects and marks the id most
recently used; a miss performs the GET, stores the parsed `Message` as
most recently used and evicts the least recently used entry when the table
would exceed `lru_maxsize` entries. -/
def OneSecMail.get_message (net : Net) (m : OneSecMail) (st : MsgCache)
    (id : Nat) : Message × MsgCache × List Event :=
  if id ∈ st then
    (Message.from_dict (net.readMessage m.username m.domain id),
     id :: st.erase id, [])
  else
    (Message.from_dict (net.readMessage m.username m.domain id),
     (id :: st).take lru_maxsize,
     [.netReadMessage m.username m.domain id])

/-- providers.py, `OneSecMail.get_inbox()`: one GET, each raw entry turned
into a `MessageInfo` by `from_dict`. -/
def OneSecMail.get_inbox (net : Net) (m : OneSecMail) (k : Nat) :
    List MessageInfo × List Event :=
  ((net.getMessages m.username m.domain k).map MessageInfo.from_dict,
   [.netGetMessages m.username m.domain])

/-- The inner `for msg_info in inbox` loop of `OneSecMail.wait_for_message`:
`filter(msg_info.message)` resolves the full message through the cached
`get_message`, and `return msg_info.message` resolves it a second time
(hitting the cache). -/
def OneSecMail.scan_inbox (net : Net) (m : OneSecMail) (f : Message → Bool) :
    List MessageInfo → MsgCache →
      Option Message × MsgCache × List Event
  | [], st => (none, st, [])
  | mi :: rest, st =>
    match OneSecMail.get_message net m st mi.id with
    | (msg, st1, evs) =>
      if f msg then
        match OneSecMail.get_message net m st1 mi.id with
        | (msg2, st2, evs2) => (some msg2, st2, evs ++ evs2)
      else
        match OneSecMail.scan_inbox net m f rest st1 with
        | (r, st2, evs2) => (r, st2, evs ++ evs2)

/-- The loop condition `timeout is None or time.time() < timeout_time` of
`OneSecMail.wait_for_message`.  Here `timeout_time` is `None` exactly when
`timeout is None`, so the condition never compares against `None`. -/
def osm_loop_cond (clock : Nat → Int) (timeout_time : Option Int)
    (k : Nat) : Bool :=
  match timeout_time with
  | none => true
  | some tt => decide (clock (k + 1) < tt)

/-- The `while` loop of `OneSecMail.wait_for_message`. -/
def OneSecMail.wait_loop (net : Net) (clock : Nat → Int) (m : OneSecMail)
    (f : Message → Bool) (timeout_time : Option Int) :
    Nat → Nat → MsgCache →
      Option (Except PyError Message × MsgCache × List Event)
  | _, 0, _ => none
  | k, fuel + 1, st =>
    if osm_loop_cond clock timeout_time k then
      match OneSecMail.scan_inbox net m f (OneSecMail.get_inbox net m k).1 st with
      | (some msg, st1, evs) =>
        some (.ok msg, st1, Event.netGetMessages m.username m.domain :: evs)
      | (none, st1, evs) =>
        match OneSecMail.wait_loop net clock m f timeout_time (k + 1) fuel st1 with
        | none => none
        | some (r, st2, evs2) =>
          some (r, st2,
            Event.netGetMessages m.username m.domain :: evs
              ++ [Event.sleep] ++ evs2)
    else
      some (.error (.timeoutError "Timed out waiting for message"), st, [])

/-- providers.py, `OneSecMail.wait_for_message(timeout=60, filter=...)`.
The line `timeout_time = time.time() + timeout if timeout is not None else
None` only leaves `timeout_time` unset for `timeout is None`. -/
def OneSecMail.wait_for_message (net : Net) (clock : Nat → Int)
    (m : OneSecMail) (f : Message → Bool) (timeout : Option Int)
    (st : MsgCache) (fuel : Nat) :
    Option (Except PyError Message × MsgCache × List Event) :=
  let timeout_time : Option Int :=
    match timeout with
    | some t => some (clock 0 + t)
    | none => none
  OneSecMail.wait_loop net clock m f timeout_time 0 fuel st

/-- Is this event the full-message GET for message `id`? -/
def isReadMsg (id : Nat) : Event → Bool
  | .netReadMessage _ _ i => i = id
  | _ => false

/-- Is this event an inbox-listing GET? -/
def isPoll : Event → Bool
  | .netGetMessages _ _ => true
  | _ => false

/-- Is this event a sleep between poll cycles? -/
def isSleep : Event → Bool
  | .sleep => true
  | _ => false

/-- Is this event an evaluation of filter `fid` on message `id` of
`email`? -/
def isEvalKey (email : String) (fid id : Nat) : Event → Bool
  | .evalFilter f e i => f = fid && e = email && i = id
  | _ => false

/-- 1 when the `_check_message` cache holds key `key`, else 0. -/
def cacheInd (st : CheckCache) (key : CheckKey) : Nat :=
  match alookup st key with
  | none => 0
  | some _ => 1

/-- What `_check_message email id filter` answers in cache state `st`
(for an email that splits into `u@d`): the cached pair, or the pair built
from the fetched message. -/
def resolveCheck (net : Net) (fid : Nat) (f : RawMessage → Bool)
    (email u d : String) (st : CheckCache) (id : Nat) : Bool × RawMessage :=
  match alookup st (email, id, fid) with
  | some r => r
  | none =>
    let msg := net.readMessage u d id
    (f msg, msg)

/-- What `OneSecMail.get_message id` answers in cache state `st`: a cached
value always equals its recomputation through the pure network oracle (see
`MsgCache`), so the answer does not depend on the cache state — only the
event trace and the new state do. -/
def resolveMsg (net : Net) (m : OneSecMail) (_st : MsgCache) (id : Nat) :
    Message :=
  Message.from_dict (net.readMessage m.username m.domain id)

/-- A concrete full-message response used by the concrete runs below. -/
def rawMsg1 : RawMessage :=
  { id := 1, from_addr := "sender@example.com", subject := "hello",
    date := "2023-01-01 00:00:00", body := "<b>hi</b>", textBody := "hi",
    htmlBody := "<b>hi</b>", attachments := [] }

/-- Its inbox summary. -/
def rawInfo1 : RawMsgInfo :=
  { id := 1, from_addr := "sender@example.com", subject := "hello",
    date := "2023-01-01 00:00:00" }

/-- A server whose inboxes are always empty. -/
def netEmpty : Net :=
  { getMessages := fun _ _ _ => [], readMessage := fun _ _ _ => rawMsg1 }

/-- A server that always lists exactly message 1. -/
def netOne : Net :=
  { getMessages := fun _ _ _ => [rawInfo1],
    readMessage := fun _ _ _ => rawMsg1 }

/-- A strictly increasing wall clock. -/
def clockId : Nat → Int := fun n => n

/-- 1 when the LRU table holds message `id`, else 0. -/
def msgInd (st : MsgCache) (id : Nat) : Nat :=
  if id ∈ st then 1 else 0

/-- A server whose every inbox listing contains 129 distinct messages
(ids 0 to 128) — one more than `functools.lru_cache`'s default capacity
of 128. -/
def net129 : Net :=
  { getMessages := fun _ _ _ =>
      (List.range 129).map fun i =>
        { id := i, from_addr := "sender@example.com", subject := "m",
          date := "2023-01-01 00:00:00" },
    readMessage := fun _ _ i => { rawMsg1 with id := i } }

/-- An `OneSecMail.wait_for_message` run against `net129` with a filter
that never matches and a 3-second timeout: the loop polls twice, fetches
all 129 listed messages each time (inserting message 128 evicts message 0,
and the second poll then re-downloads everything), and times out. -/
def run129 : Option (Except PyError Message × MsgCache × List Event) :=
  OneSecMail.wait_for_message net129 clockId ⟨"user", "1secmail.com"⟩
    (fun _ => false) (some 3) [] 3

/-- The event trace of `run129`. -/
def run129_events : List Event :=
  match run129 with
  | some (_, _, evs) => evs
  | none => []

/-!  Basic lemmas about the association-list caches and the Python split. -/

theorem alookup_cons {α β : Type} [DecidableEq α] (k : α) (v : β)
    (l : List (α × β)) (a : α) :
    alookup ((k, v) :: l) a = if k = a then some v else alookup l a := rfl

theorem cacheInd_le_one (st : CheckCache) (key : CheckKey) :
    cacheInd st key ≤ 1 := by
  unfold cacheInd
  cases alookup st key <;> simp

theorem pySplitAux_ne_nil (sep : Char) (l : List Char) :
    pySplitAux sep l ≠ [] := by
  cases l with
  | nil => simp [pySplitAux]
  | cons c cs =>
    unfold pySplitAux
    cases pySplitAux sep cs with
    | nil => by_cases hc : c = sep <;> simp [hc]
    | cons h t => by_cases hc : c = sep <;> simp [hc]

theorem pySplitAux_length (sep : Char) (l : List Char) :
    (pySplitAux sep l).length = l.countP (fun c => c = sep) + 1 := by
  induction l with
  | nil => rfl
  | cons c cs ih =>
    unfold pySplitAux
    cases h : pySplitAux sep cs with
    | nil => exact absurd h (pySplitAux_ne_nil sep cs)
    | cons hd tl =>
      rw [h] at ih
      simp only [List.length_cons] at ih
      by_cases hc : c = sep <;>
        simp [hc, List.countP_cons] <;> omega

/-- A string with a number of '@' other than one makes the two-variable
unpacking of `split('@')` raise ValueError. -/
theorem splitUnpack2_error (s : String) (h : atCount s ≠ 1) :
    splitUnpack2 s = .error (.valueError "unpack") := by
  have hlen : (pySplit s '@').length = atCount s + 1 := by
    unfold pySplit atCount
    rw [List.length_map]
    exact pySplitAux_length '@' s.data
  unfold splitUnpack2
  match hp : pySplit s '@' with
  | [] => rfl
  | [u] => rfl
  | [u, d] =>
    rw [hp] at hlen
    simp at hlen
    omega
  | u :: d :: x :: rest => rfl

/-!  Claim theorems. -/

/-- Claim C1 (code bug witness): with timeout 0 and an empty inbox,
`OneSecMail.wait_for_message` raises TimeoutError immediately with no poll
cycle (empty trace), but the module-level `wait_for_message` instead
raises TypeError: `timeout_time = time.time() + timeout if timeout else
None` treats the int 0 as falsy, leaves `timeout_time = None`, and the
loop condition then evaluates `time.time() < None`. -/
theorem claim_C1 :
    OneSecMail.wait_for_message netEmpty clockId ⟨"user", "1secmail.com"⟩
        (fun _ => true) (some 0) [] 5
      = some (.error (.timeoutError "Timed out waiting for message"), [], [])
    ∧ wait_for_message netEmpty clockId 0 (fun _ => true)
        "user@1secmail.com" (some 0) [] 5
      = some (.error (.typeError "float < NoneType"), [], []) :=
  ⟨rfl, rfl⟩

/-- Claim C2: a requested domain outside the allow-list fails with
ValueError: the module-level `get_inbox`, `get_message` and
`wait_for_message` raise it before issuing any network request (their
event trace is empty), and `OneSecMail` construction raises it whether the
domain comes from an explicit `address` or from the `domain` argument. -/
theorem claim_C2 (net : Net) (clock : Nat → Int) (fid : Nat)
    (f : RawMessage → Bool) (email u d : String) (domains : List String)
    (pick : Nat → Nat) (randIdx : Nat) (username0 domain0 : Option String)
    (timeout : Option Int) (st : CheckCache) (fuel k id : Nat)
    (hsplit : splitUnpack2 email = .ok (u, d))
    (hd : d ∉ DOMAINS) (hd2 : d ∉ domains) :
    get_inbox net k email
      = (.error (.valueError ("Invalid domain: " ++ d)), [])
    ∧ get_message net email id
      = (.error (.valueError ("Invalid domain: " ++ d)), [])
    ∧ wait_for_message net clock fid f email timeout st fuel
      = some (.error (.valueError ("Invalid domain: " ++ d)), st, [])
    ∧ OneSecMail.init domains pick randIdx (some email) username0 domain0
      = .error (.valueError ("Invalid domain: " ++ d))
    ∧ OneSecMail.init domains pick randIdx none username0 (some d)
      = .error (.valueError ("Invalid domain: " ++ d)) := by
  refine ⟨?_, ?_, ?_, ?_, ?_⟩ <;>
    simp [get_inbox, get_message, wait_for_message, OneSecMail.init,
      initSplit, hsplit, hd, hd2]

/-- Closed instance of claim C2 at the address "user@bad.com". -/
theorem claim_C2_witness :
    splitUnpack2 "user@bad.com" = .ok ("user", "bad.com")
    ∧ "bad.com" ∉ DOMAINS
    ∧ get_inbox netEmpty 0 "user@bad.com"
      = (.error (.valueError "Invalid domain: bad.com"), []) :=
  ⟨by rfl, by decide,
   (claim_C2 netEmpty clockId 0 (fun _ => true) "user@bad.com" "user"
      "bad.com" DOMAINS (fun _ => 0) 0 none none (some 60) [] 3 0 1
      (by rfl) (by decide) (by decide)).1⟩

theorem pyTruthy_some (o : Option String) (d1 : String)
    (h : pyTruthy o = some d1) : o = some d1 := by
  cases o with
  | none => simp [pyTruthy] at h
  | some d =>
    unfold pyTruthy at h
    by_cases hde : d = "" <;> simp [hde] at h
    rw [h]

/-- Every successful `OneSecMail.__init__` ends with a domain from the
allow-list: a supplied domain was validated against it and an absent one
was drawn from it. -/
theorem OneSecMail_init_domain_mem (domains : List String)
    (pick : Nat → Nat) (randIdx : Nat)
    (address username domain : Option String) (m : OneSecMail)
    (hinit : OneSecMail.init domains pick randIdx address username domain
      = .ok m) : m.domain ∈ domains := by
  unfold OneSecMail.init at hinit
  cases hsp : initSplit address username domain with
  | error e => rw [hsp] at hinit; exact absurd hinit (by simp)
  | ok p =>
    rw [hsp] at hinit
    obtain ⟨username1, domain1⟩ := p
    simp only [] at hinit
    split at hinit
    · exact absurd hinit (by simp)
    · rename_i hval
      split at hinit
      · rename_i d1 hdt
        injection hinit with h
        rw [← h]
        have hd1 := pyTruthy_some domain1 d1 hdt
        subst hd1
        simp at hval
        exact hval
      · split at hinit
        · rename_i d1 hget
          injection hinit with h
          rw [← h]
          exact List.get?_mem hget
        · exact absurd hinit (by simp)

/-- When `__init__` is called without an address, the resulting username
is the given one when truthy, else `random_string(10)`. -/
theorem OneSecMail_init_username (domains : List String)
    (pick : Nat → Nat) (randIdx : Nat) (username domain : Option String)
    (m : OneSecMail)
    (hinit : OneSecMail.init domains pick randIdx none username domain
      = .ok m) :
    m.username = pyOrStr username (random_string pick 10) := by
  unfold OneSecMail.init at hinit
  rw [show initSplit none username domain = .ok (username, domain) from rfl]
    at hinit
  simp only [] at hinit
  split at hinit
  · exact absurd hinit (by simp)
  · split at hinit
    · injection hinit with h
      rw [← h]
    · split at hinit
      · injection hinit with h
        rw [← h]
      · exact absurd hinit (by simp)

/-- Claim C3 counterexample: `get_email` does not validate a
caller-supplied domain, so a call with `domain='evil.example'` returns an
address whose domain is outside the allow-list. -/
theorem claim_C3_cex :
    get_email (fun _ => 0) 0 (some "user") (some "evil.example")
      = "user@evil.example"
    ∧ splitUnpack2 "user@evil.example" = .ok ("user", "evil.example")
    ∧ "evil.example" ∉ DOMAINS := by
  refine ⟨rfl, rfl, by decide⟩

/-- Claim C3 as amended: a successfully constructed `OneSecMail` always
has a domain from the allow-list, and `get_email` without a
caller-supplied domain draws its domain from `DOMAINS`; but `get_email`
with a caller-supplied domain returns it unvalidated. -/
theorem claim_C3_amended (domains : List String) (pick : Nat → Nat)
    (randIdx : Nat) (address username domain : Option String)
    (m : OneSecMail) (domIdx : Nat) (username2 : Option String)
    (hinit : OneSecMail.init domains pick randIdx address username domain
      = .ok m) :
    m.domain ∈ domains
    ∧ ∃ u d, get_email pick domIdx username2 none = u ++ "@" ++ d
        ∧ d ∈ DOMAINS := by
  refine ⟨OneSecMail_init_domain_mem domains pick randIdx address username
    domain m hinit, _, _, rfl, ?_⟩
  exact List.get_mem DOMAINS _ _

/-- Closed instance of the amended claim C3. -/
theorem claim_C3_amended_witness :
    OneSecMail.init DOMAINS (fun _ => 0) 0 none none (some "1secmail.com")
      = .ok ⟨"aaaaaaaaaa", "1secmail.com"⟩
    ∧ (⟨"aaaaaaaaaa", "1secmail.com"⟩ : OneSecMail).domain ∈ DOMAINS :=
  ⟨by rfl,
   (claim_C3_amended DOMAINS (fun _ => 0) 0 none none (some "1secmail.com")
      ⟨"aaaaaaaaaa", "1secmail.com"⟩ 0 none (by rfl)).1⟩

/-- Claim C4 counterexample: the module-level `get_message` is not
memoized; a repeated fetch of the same id performs a network request
again, so two successive fetches of message 1 produce two GET events. -/
theorem claim_C4_cex :
    (get_message netOne "user@1secmail.com" 1).2
        ++ (get_message netOne "user@1secmail.com" 1).2
      = [.netReadMessage "user" "1secmail.com" 1,
         .netReadMessage "user" "1secmail.com" 1] := by
  rfl

/-- Claim C4 as amended: `OneSecMail.get_message` is memoized per message
id — fetching the same id again returns the identical record, leaves the
cache unchanged and performs no network request — while the module-level
`get_message` issues a GET request on every successful call. -/
theorem claim_C4_amended (net : Net) (m : OneSecMail) (st : MsgCache)
    (id : Nat) (email u d : String)
    (hsplit : splitUnpack2 email = .ok (u, d)) (hd : d ∈ DOMAINS) :
    OneSecMail.get_message net m (OneSecMail.get_message net m st id).2.1 id
      = ((OneSecMail.get_message net m st id).1,
         (OneSecMail.get_message net m st id).2.1, [])
    ∧ (get_message net email id).2 = [.netReadMessage u d id] := by
  constructor
  · unfold OneSecMail.get_message
    by_cases h : id ∈ st
    · rw [if_pos h]
      dsimp only
      rw [if_pos (List.mem_cons_self id (st.erase id)),
        List.erase_cons_head]
    · rw [if_neg h]
      dsimp only
      rw [show lru_maxsize = 127 + 1 from rfl, List.take_succ_cons]
      rw [if_pos (List.mem_cons_self id (st.take 127)),
        List.erase_cons_head]
  · simp [get_message, hsplit, hd]

/-- Closed instance of the amended claim C4. -/
theorem claim_C4_amended_witness :
    OneSecMail.get_message netOne ⟨"user", "1secmail.com"⟩
        (OneSecMail.get_message netOne ⟨"user", "1secmail.com"⟩ [] 1).2.1 1
      = ((OneSecMail.get_message netOne ⟨"user", "1secmail.com"⟩ [] 1).1,
         (OneSecMail.get_message netOne ⟨"user", "1secmail.com"⟩ [] 1).2.1,
         []) :=
  (claim_C4_amended netOne ⟨"user", "1secmail.com"⟩ [] 1
    "user@1secmail.com" "user" "1secmail.com" (by rfl) (by decide)).1

/-- Claim C7 counterexample: the three record types are declared with a
bare `@dataclass` (no `frozen=True`), so field assignment on an instance
is not rejected: setting `id` on a `MessageInfo` built from an API
response succeeds and changes the field. -/
theorem claim_C7_cex :
    MessageInfo.pySetId messageInfoOptions (MessageInfo.from_dict rawInfo1) 99
      = .ok ⟨99, "sender@example.com", "hello", "2023-01-01 00:00:00"⟩
    ∧ messageInfoOptions.frozen = false
    ∧ messageOptions.frozen = false
    ∧ attachmentOptions.frozen = false := by
  refine ⟨rfl, rfl, rfl, rfl⟩

/-- Claim C7 as amended: each record is populated entirely from one API
response by its `from_dict` constructor (plus, for `Attachment`, the id of
the owning message), and no library operation reassigns a field; but the
dataclasses are not frozen, so Python-level field mutation is not
rejected. -/
theorem claim_C7_amended :
    (∀ d : RawMsgInfo, MessageInfo.from_dict d
        = ⟨d.id, d.from_addr, d.subject, d.date⟩)
    ∧ (∀ d : RawMessage, Message.from_dict d
        = ⟨d.id, d.from_addr, d.subject, d.date, d.body, d.textBody,
           d.htmlBody, d.attachments⟩)
    ∧ (∀ (mid : Nat) (d : RawAttachment), Attachment.from_dict mid d
        = ⟨d.filename, d.contentType, d.size, mid⟩) :=
  ⟨fun _ => rfl, fun _ => rfl, fun _ _ => rfl⟩

/-- Claim C8: an address whose number of '@' characters is not exactly one
makes the two-variable unpacking of `split('@')` raise ValueError in
`OneSecMail.__init__` (when the address argument is given) and in the
module-level `get_inbox`, `get_message` and `wait_for_message`, in every
case before any network request (empty event trace). -/
theorem claim_C8 (net : Net) (clock : Nat → Int) (fid : Nat)
    (f : RawMessage → Bool) (email : String) (domains : List String)
    (pick : Nat → Nat) (randIdx : Nat) (username0 domain0 : Option String)
    (timeout : Option Int) (st : CheckCache) (fuel k id : Nat)
    (h : atCount email ≠ 1) :
    get_inbox net k email = (.error (.valueError "unpack"), [])
    ∧ get_message net email id = (.error (.valueError "unpack"), [])
    ∧ wait_for_message net clock fid f email timeout st fuel
      = some (.error (.valueError "unpack"), st, [])
    ∧ OneSecMail.init domains pick randIdx (some email) username0 domain0
      = .error (.valueError "unpack") := by
  have hs := splitUnpack2_error email h
  refine ⟨?_, ?_, ?_, ?_⟩ <;>
    simp [get_inbox, get_message, wait_for_message, OneSecMail.init,
      initSplit, hs]

/-- Closed instance of claim C8 at the address "nodomain". -/
theorem claim_C8_witness :
    atCount "nodomain" ≠ 1
    ∧ get_inbox netEmpty 0 "nodomain"
      = (.error (.valueError "unpack"), []) :=
  ⟨by decide,
   (claim_C8 netEmpty clockId 0 (fun _ => true) "nodomain" DOMAINS
      (fun _ => 0) 0 none none (some 60) [] 3 0 1 (by decide)).1⟩

/-- Claim C10: `random_string(n)` returns a string of exactly n
characters, each a lowercase ASCII letter, and both `get_email` and
`OneSecMail.__init__` use `random_string(10)` as the local part when no
username is supplied. -/
theorem claim_C10 (pick : Nat → Nat) (n : Nat) (domIdx : Nat)
    (domain domain2 : Option String) (domains : List String)
    (randIdx : Nat) (m : OneSecMail)
    (hinit : OneSecMail.init domains pick randIdx none none domain2
      = .ok m) :
    (random_string pick n).length = n
    ∧ (∀ c ∈ (random_string pick n).data, c ∈ ascii_lowercase)
    ∧ (random_string pick 10).length = 10
    ∧ (∃ d, get_email pick domIdx none domain
        = random_string pick 10 ++ "@" ++ d)
    ∧ m.username = random_string pick 10 := by
  have hlen : ∀ k : Nat, (random_string pick k).length = k := by
    intro k
    show ((List.range k).map _).length = k
    rw [List.length_map, List.length_range]
  refine ⟨hlen n, ?_, hlen 10, ⟨_, rfl⟩, ?_⟩
  · intro c hc
    simp only [random_string, List.mem_map, List.mem_range] at hc
    obtain ⟨i, _, rfl⟩ := hc
    exact List.get_mem ascii_lowercase _ _
  · exact OneSecMail_init_username domains pick randIdx none domain2 m hinit

/-!  Counting invariants: during the module-level wait loop, each message
id is downloaded at most once and each filter evaluated at most once,
because `_check_message` stores its answer under (email, id, filter). -/

/-- The module-level `get_message` either fails with no effects or issues
exactly the one GET for its id. -/
theorem get_message_cases (net : Net) (email : String) (id : Nat) :
    (∃ e, get_message net email id = (.error e, []))
    ∨ ∃ u d, splitUnpack2 email = .ok (u, d) ∧ d ∈ DOMAINS
        ∧ get_message net email id
          = (.ok (net.readMessage u d id), [.netReadMessage u d id]) := by
  cases h : splitUnpack2 email with
  | error e => exact .inl ⟨e, by simp [get_message, h]⟩
  | ok p =>
    obtain ⟨u, d⟩ := p
    by_cases hd : d ∈ DOMAINS
    · exact .inr ⟨u, d, rfl, hd, by simp [get_message, h, hd]⟩
    · exact .inl ⟨.valueError ("Invalid domain: " ++ d),
        by simp [get_message, h, hd]⟩

/-- One `_check_message` call: for any key (email, id, fid) sharing the
call's email and filter, the number of GET events for id plus the
was-cached indicator never exceeds the is-cached-now indicator, and
likewise for filter evaluations. -/
theorem check_message_once (net : Net) (fid : Nat) (f : RawMessage → Bool)
    (email : String) (id0 id : Nat) (st : CheckCache) :
    (check_message net fid f email id0 st).2.2.countP (isReadMsg id)
        + cacheInd st (email, id, fid)
      ≤ cacheInd (check_message net fid f email id0 st).2.1 (email, id, fid)
    ∧ (check_message net fid f email id0 st).2.2.countP (isEvalKey email fid id)
        + cacheInd st (email, id, fid)
      ≤ cacheInd (check_message net fid f email id0 st).2.1
          (email, id, fid) := by
  unfold check_message
  cases hl : alookup st (email, id0, fid) with
  | some r => simp [hl]
  | none =>
    rcases get_message_cases net email id0 with ⟨e, hg⟩ | ⟨u, d, _, _, hg⟩
    · simp [hl, hg]
    · by_cases hid : id0 = id
      · subst hid
        simp [hl, hg, cacheInd, alookup_cons, isReadMsg, isEvalKey,
          List.countP_cons]
      · have hkey : ((email, id0, fid) : CheckKey) ≠ (email, id, fid) := by
          simp [hid]
        simp [hl, hg, cacheInd, alookup_cons, isReadMsg, isEvalKey,
          List.countP_cons, hid, hkey]

/-- One pass over a listing: same invariant as for a single
`_check_message` call, composed along the scan. -/
theorem scan_listing_once (net : Net) (fid : Nat) (f : RawMessage → Bool)
    (email : String) (l : List RawMsgInfo) (st : CheckCache) (id : Nat) :
    (scan_listing net fid f email l st).2.2.countP (isReadMsg id)
        + cacheInd st (email, id, fid)
      ≤ cacheInd (scan_listing net fid f email l st).2.1 (email, id, fid)
    ∧ (scan_listing net fid f email l st).2.2.countP (isEvalKey email fid id)
        + cacheInd st (email, id, fid)
      ≤ cacheInd (scan_listing net fid f email l st).2.1
          (email, id, fid) := by
  induction l generalizing st with
  | nil => simp [scan_listing]
  | cons mi rest ih =>
    have hc := check_message_once net fid f email mi.id id st
    rcases hcm : check_message net fid f email mi.id st with ⟨r, st1, evs⟩
    rw [hcm] at hc
    dsimp only at hc
    cases r with
    | error e =>
      simp only [scan_listing, hcm]
      exact hc
    | ok p =>
      obtain ⟨status, msg⟩ := p
      by_cases hs : status = true
      · simp only [scan_listing, hcm, hs, if_pos]
        exact hc
      · have hrec := ih st1
        rcases hscan : scan_listing net fid f email rest st1
          with ⟨r2, st2, evs2⟩
        rw [hscan] at hrec
        dsimp only at hrec
        simp only [scan_listing, hcm, hs, hscan, Bool.false_eq_true,
          if_false, List.countP_append]
        exact ⟨by have := hc.1; have := hrec.1; omega,
               by have := hc.2; have := hrec.2; omega⟩

/-- Any complete run of the module-level wait loop GETs each message id at
most as often as it can newly enter the cache, and likewise evaluates the
filter. -/
theorem wait_loop_once (net : Net) (clock : Nat → Int) (fid : Nat)
    (f : RawMessage → Bool) (email username domain : String)
    (timeout timeout_time : Option Int) (fuel : Nat) :
    ∀ (k : Nat) (st : CheckCache) (r : Except PyError RawMessage)
      (st2 : CheckCache) (evs : List Event),
    wait_loop net clock fid f email username domain timeout timeout_time
        k fuel st = some (r, st2, evs) →
    ∀ id : Nat,
    evs.countP (isReadMsg id) + cacheInd st (email, id, fid)
      ≤ cacheInd st2 (email, id, fid)
    ∧ evs.countP (isEvalKey email fid id) + cacheInd st (email, id, fid)
      ≤ cacheInd st2 (email, id, fid) := by
  induction fuel with
  | zero =>
    intro k st r st2 evs h id
    simp [wait_loop] at h
  | succ n ih =>
    intro k st r st2 evs h id
    unfold wait_loop at h
    cases hcond : loop_cond clock timeout timeout_time k with
    | error e =>
      rw [hcond] at h
      simp only [Option.some.injEq, Prod.mk.injEq] at h
      obtain ⟨_, hst, hevs⟩ := h
      subst hst; subst hevs
      simp
    | ok b =>
      rw [hcond] at h
      cases b with
      | false =>
        simp only [Option.some.injEq, Prod.mk.injEq] at h
        obtain ⟨_, hst, hevs⟩ := h
        subst hst; subst hevs
        simp
      | true =>
        have hsc := scan_listing_once net fid f email
          (net.getMessages username domain k) st id
        rcases hscan : scan_listing net fid f email
            (net.getMessages username domain k) st with ⟨ropt, st1, evs1⟩
        rw [hscan] at hsc h
        dsimp only at hsc
        cases ropt with
        | some r1 =>
          simp only [] at h
          simp only [Option.some.injEq, Prod.mk.injEq] at h
          obtain ⟨_, hst, hevs⟩ := h
          subst hst; subst hevs
          have h1 := hsc.1
          have h2 := hsc.2
          constructor
          · simp [List.countP_cons, isReadMsg]; omega
          · simp [List.countP_cons, isEvalKey]; omega
        | none =>
          simp only [] at h
          cases hrec : wait_loop net clock fid f email username domain
              timeout timeout_time (k + 1) n st1 with
          | none => rw [hrec] at h; exact absurd h (by simp)
          | some q =>
            obtain ⟨r2, st3, evs3⟩ := q
            have hi := ih (k + 1) st1 r2 st3 evs3 hrec id
            rw [hrec] at h
            simp only [Option.some.injEq, Prod.mk.injEq] at h
            obtain ⟨_, hst, hevs⟩ := h
            subst hst; subst hevs
            have h1 := hsc.1
            have h2 := hsc.2
            have h3 := hi.1
            have h4 := hi.2
            constructor
            · simp [List.countP_cons, List.countP_append, isReadMsg]
              omega
            · simp [List.countP_cons, List.countP_append, isEvalKey]
              omega

/-- One `OneSecMail.get_message` call, provided the resulting table is
below the LRU capacity (so the call cannot have evicted anything): the
table never shrinks, and the GET count for an id plus the was-cached
indicator never exceeds the is-cached-now indicator. -/
theorem osm_get_message_nocap (net : Net) (m : OneSecMail) (st : MsgCache)
    (id0 : Nat)
    (hcap : (OneSecMail.get_message net m st id0).2.1.length
      < lru_maxsize) :
    st.length ≤ (OneSecMail.get_message net m st id0).2.1.length
    ∧ ∀ id, (OneSecMail.get_message net m st id0).2.2.countP (isReadMsg id)
        + msgInd st id
      ≤ msgInd (OneSecMail.get_message net m st id0).2.1 id := by
  unfold OneSecMail.get_message at hcap ⊢
  by_cases h : id0 ∈ st
  · rw [if_pos h] at hcap ⊢
    dsimp only at hcap ⊢
    have hlen : st.length ≥ 1 := List.length_pos.mpr
      (List.ne_nil_of_mem h)
    constructor
    · rw [List.length_cons, List.length_erase_of_mem h]
      omega
    · intro id
      simp only [List.countP_nil, Nat.zero_add]
      unfold msgInd
      by_cases hid : id ∈ st
      · have hmem : id ∈ id0 :: st.erase id0 := by
          by_cases hi0 : id = id0
          · subst hi0; exact List.mem_cons_self id (st.erase id)
          · exact List.mem_cons_of_mem id0
              ((List.mem_erase_of_ne hi0).mpr hid)
        simp [hid, hmem]
      · simp [hid]
  · rw [if_neg h] at hcap ⊢
    dsimp only at hcap ⊢
    have hlen : st.length + 1 ≤ lru_maxsize := by
      rw [List.length_take, List.length_cons] at hcap
      omega
    have htake : (id0 :: st).take lru_maxsize = id0 :: st :=
      List.take_of_length_le (by rw [List.length_cons]; omega)
    rw [htake]
    refine ⟨by simp, ?_⟩
    intro id
    by_cases hid : id0 = id
    · subst hid
      simp [List.countP_cons, isReadMsg, msgInd, h]
    · simp only [List.countP_cons, List.countP_nil]
      unfold msgInd
      by_cases hmem : id ∈ st
      · simp [isReadMsg, hid, hmem, List.mem_cons_of_mem]
      · simp [isReadMsg, hid, hmem]

/-- One pass of the `OneSecMail.wait_for_message` inner loop, provided its
final table is below the LRU capacity: same invariant, composed along the
scan. -/
theorem osm_scan_inbox_nocap (net : Net) (m : OneSecMail)
    (f : Message → Bool) (l : List MessageInfo) (st : MsgCache)
    (hcap : (OneSecMail.scan_inbox net m f l st).2.1.length
      < lru_maxsize) :
    st.length ≤ (OneSecMail.scan_inbox net m f l st).2.1.length
    ∧ ∀ id, (OneSecMail.scan_inbox net m f l st).2.2.countP (isReadMsg id)
        + msgInd st id
      ≤ msgInd (OneSecMail.scan_inbox net m f l st).2.1 id := by
  induction l generalizing st with
  | nil => simp [OneSecMail.scan_inbox]
  | cons mi rest ih =>
    rcases hg1 : OneSecMail.get_message net m st mi.id with ⟨msg, st1, evs⟩
    by_cases hf : f msg = true
    · rcases hg2 : OneSecMail.get_message net m st1 mi.id
        with ⟨msg2, st2, evs2⟩
      simp only [OneSecMail.scan_inbox, hg1, hf, if_pos, hg2] at hcap ⊢
      have h2 := osm_get_message_nocap net m st1 mi.id (by rw [hg2]; exact hcap)
      rw [hg2] at h2
      dsimp only at h2
      have h1 := osm_get_message_nocap net m st mi.id
        (by rw [hg1]; dsimp only; omega)
      rw [hg1] at h1
      dsimp only at h1
      refine ⟨by omega, ?_⟩
      intro id
      have := h1.2 id
      have := h2.2 id
      simp only [List.countP_append]
      omega
    · rcases hsc : OneSecMail.scan_inbox net m f rest st1
        with ⟨r2, st2, evs2⟩
      simp only [OneSecMail.scan_inbox, hg1, hf, Bool.false_eq_true,
        if_false, hsc] at hcap ⊢
      have h2 := ih st1 (by rw [hsc]; exact hcap)
      rw [hsc] at h2
      dsimp only at h2
      have h1 := osm_get_message_nocap net m st mi.id
        (by rw [hg1]; dsimp only; omega)
      rw [hg1] at h1
      dsimp only at h1
      refine ⟨by omega, ?_⟩
      intro id
      have := h1.2 id
      have := h2.2 id
      simp only [List.countP_append]
      omega

/-- A complete run of the `OneSecMail.wait_for_message` loop whose final
table is below the LRU capacity (so nothing was evicted during the run)
GETs each message id at most as often as it can newly enter the table. -/
theorem osm_wait_loop_nocap (net : Net) (clock : Nat → Int)
    (m : OneSecMail) (f : Message → Bool) (timeout_time : Option Int)
    (fuel : Nat) :
    ∀ (k : Nat) (st : MsgCache) (r : Except PyError Message)
      (st2 : MsgCache) (evs : List Event),
    OneSecMail.wait_loop net clock m f timeout_time k fuel st
      = some (r, st2, evs) →
    st2.length < lru_maxsize →
    st.length ≤ st2.length
    ∧ ∀ id : Nat,
      evs.countP (isReadMsg id) + msgInd st id ≤ msgInd st2 id := by
  induction fuel with
  | zero =>
    intro k st r st2 evs h hcap
    simp [OneSecMail.wait_loop] at h
  | succ n ih =>
    intro k st r st2 evs h hcap
    unfold OneSecMail.wait_loop at h
    by_cases hcond : osm_loop_cond clock timeout_time k = true
    · rw [if_pos hcond] at h
      rcases hscan : OneSecMail.scan_inbox net m f
          (OneSecMail.get_inbox net m k).1 st with ⟨ropt, st1, evs1⟩
      rw [hscan] at h
      cases ropt with
      | some msg =>
        simp only [] at h
        simp only [Option.some.injEq, Prod.mk.injEq] at h
        obtain ⟨_, hst, hevs⟩ := h
        subst hst; subst hevs
        have hsc := osm_scan_inbox_nocap net m f
          (OneSecMail.get_inbox net m k).1 st (by rw [hscan]; exact hcap)
        rw [hscan] at hsc
        dsimp only at hsc
        refine ⟨hsc.1, ?_⟩
        intro id
        have := hsc.2 id
        simp [List.countP_cons, isReadMsg]
        omega
      | none =>
        simp only [] at h
        cases hrec : OneSecMail.wait_loop net clock m f timeout_time
            (k + 1) n st1 with
        | none => rw [hrec] at h; exact absurd h (by simp)
        | some q =>
          obtain ⟨r2, st3, evs3⟩ := q
          rw [hrec] at h
          simp only [Option.some.injEq, Prod.mk.injEq] at h
          obtain ⟨_, hst, hevs⟩ := h
          subst hst; subst hevs
          have hi := ih (k + 1) st1 r2 st3 evs3 hrec hcap
          have hsc := osm_scan_inbox_nocap net m f
            (OneSecMail.get_inbox net m k).1 st
            (by rw [hscan]; dsimp only; omega)
          rw [hscan] at hsc
          dsimp only at hsc
          refine ⟨by omega, ?_⟩
          intro id
          have := hsc.2 id
          have := hi.2 id
          simp [List.countP_cons, List.countP_append, isReadMsg]
          omega
    · rw [if_neg hcond] at h
      simp only [Option.some.injEq, Prod.mk.injEq] at h
      obtain ⟨_, hst, hevs⟩ := h
      subst hst; subst hevs
      exact ⟨Nat.le_refl _, fun id => by simp⟩

set_option maxRecDepth 100000 in
/-- Claim C5 counterexample: `utils.cache` is a bare
`functools.lru_cache` (maxsize 128, LRU), so an `OneSecMail` wait over an
inbox listing 129 distinct messages evicts message 0 while caching message
128 and re-downloads message 0 in the next poll cycle: the run downloads
it twice before timing out. -/
theorem claim_C5_cex :
    run129_events.countP (isReadMsg 0) = 2
    ∧ run129.map (fun q => q.1)
      = some (.error (.timeoutError "Timed out waiting for message")) := by
  constructor <;> rfl

/-- Claim C5 as amended: during a module-level wait call each message id
is downloaded at most once across the process lifetime (the
`_check_message` cache is `functools.cache`, unbounded), no matter how
many poll cycles list it, and not at all when a previous call with the
same (email, filter) already cached it; during an `OneSecMail` wait call
the same holds only while the 128-entry LRU table of `utils.cache` never
reaches capacity during the call — a run whose final table is below
capacity downloads each id at most once, and not at all when the id was
already cached; once entries are evicted a later poll re-downloads
them. -/
theorem claim_C5_amended (net : Net) (clock : Nat → Int) (fid : Nat)
    (f : RawMessage → Bool) (email : String) (timeout : Option Int)
    (st : CheckCache) (fuel : Nat) (r : Except PyError RawMessage)
    (st2 : CheckCache) (evs : List Event) (id : Nat) (m : OneSecMail)
    (g : Message → Bool) (timeout2 : Option Int) (mst : MsgCache)
    (fuel2 : Nat) (r2 : Except PyError Message) (mst2 : MsgCache)
    (evs2 : List Event) (id2 : Nat)
    (h : wait_for_message net clock fid f email timeout st fuel
      = some (r, st2, evs))
    (h2 : OneSecMail.wait_for_message net clock m g timeout2 mst fuel2
      = some (r2, mst2, evs2)) :
    (evs.countP (isReadMsg id) ≤ 1
     ∧ (cacheInd st (email, id, fid) = 1 → evs.countP (isReadMsg id) = 0))
    ∧ (mst2.length < lru_maxsize →
        evs2.countP (isReadMsg id2) ≤ 1
        ∧ (id2 ∈ mst → evs2.countP (isReadMsg id2) = 0)) := by
  constructor
  · unfold wait_for_message at h
    cases hsp : splitUnpack2 email with
    | error e =>
      rw [hsp] at h
      simp only [] at h
      simp only [Option.some.injEq, Prod.mk.injEq] at h
      obtain ⟨_, _, hevs⟩ := h
      subst hevs
      simp
    | ok p =>
      obtain ⟨u, d⟩ := p
      rw [hsp] at h
      simp only [] at h
      by_cases hd : d ∈ DOMAINS
      · rw [if_pos hd] at h
        have hw := wait_loop_once net clock fid f email u d timeout _
          fuel 0 st r st2 evs h id
        have hle := cacheInd_le_one st2 (email, id, fid)
        exact ⟨by have := hw.1; omega, fun hc => by have := hw.1; omega⟩
      · rw [if_neg hd] at h
        simp only [Option.some.injEq, Prod.mk.injEq] at h
        obtain ⟨_, _, hevs⟩ := h
        subst hevs
        simp
  · intro hcap
    unfold OneSecMail.wait_for_message at h2
    have hw := osm_wait_loop_nocap net clock m g _ fuel2 0 mst r2 mst2
      evs2 h2 hcap
    have hle : msgInd mst2 id2 ≤ 1 := by
      unfold msgInd; split <;> simp
    constructor
    · have := hw.2 id2
      omega
    · intro hmem
      have h1 := hw.2 id2
      have h0 : msgInd mst id2 = 1 := by simp [msgInd, hmem]
      omega

/-- Closed instance of the amended claim C5: a run over an inbox listing
only message 1 ends with a one-entry table and downloads message 1 exactly
once. -/
theorem claim_C5_amended_witness :
    wait_for_message netOne clockId 0 (fun _ => true) "user@1secmail.com"
        (some 10) [] 3
      = some (.ok rawMsg1,
          [(("user@1secmail.com", 1, 0), (true, rawMsg1))],
          [.netGetMessages "user" "1secmail.com",
           .netReadMessage "user" "1secmail.com" 1,
           .evalFilter 0 "user@1secmail.com" 1])
    ∧ OneSecMail.wait_for_message netOne clockId ⟨"user", "1secmail.com"⟩
        (fun _ => true) (some 10) [] 3
      = some (.ok (Message.from_dict rawMsg1), [1],
          [.netGetMessages "user" "1secmail.com",
           .netReadMessage "user" "1secmail.com" 1])
    ∧ ([1] : MsgCache).length < lru_maxsize
    ∧ List.countP (isReadMsg 1)
        [.netGetMessages "user" "1secmail.com",
         .netReadMessage "user" "1secmail.com" 1,
         .evalFilter 0 "user@1secmail.com" 1] ≤ 1
    ∧ List.countP (isReadMsg 1)
        [.netGetMessages "user" "1secmail.com",
         .netReadMessage "user" "1secmail.com" 1] ≤ 1 :=
  ⟨by rfl, by rfl, by decide,
   (claim_C5_amended netOne clockId 0 (fun _ => true) "user@1secmail.com"
      (some 10) [] 3 (.ok rawMsg1)
      [(("user@1secmail.com", 1, 0), (true, rawMsg1))]
      [.netGetMessages "user" "1secmail.com",
       .netReadMessage "user" "1secmail.com" 1,
       .evalFilter 0 "user@1secmail.com" 1] 1
      ⟨"user", "1secmail.com"⟩ (fun _ => true) (some 10) [] 3
      (.ok (Message.from_dict rawMsg1)) [1]
      [.netGetMessages "user" "1secmail.com",
       .netReadMessage "user" "1secmail.com" 1] 1
      (by rfl) (by rfl)).1.1,
   ((claim_C5_amended netOne clockId 0 (fun _ => true) "user@1secmail.com"
      (some 10) [] 3 (.ok rawMsg1)
      [(("user@1secmail.com", 1, 0), (true, rawMsg1))]
      [.netGetMessages "user" "1secmail.com",
       .netReadMessage "user" "1secmail.com" 1,
       .evalFilter 0 "user@1secmail.com" 1] 1
      ⟨"user", "1secmail.com"⟩ (fun _ => true) (some 10) [] 3
      (.ok (Message.from_dict rawMsg1)) [1]
      [.netGetMessages "user" "1secmail.com",
       .netReadMessage "user" "1secmail.com" 1] 1
      (by rfl) (by rfl)).2 (by decide)).1⟩

/-- Claim C9: in the module-level `wait_for_message`, the caller's filter
is applied at most once per (email, id, filter) triple over the whole run,
and not at all when the process-lifetime `_check_message` cache already
holds that triple; later poll cycles listing the same id reuse the cached
(boolean, message) pair. -/
theorem claim_C9 (net : Net) (clock : Nat → Int) (fid : Nat)
    (f : RawMessage → Bool) (email : String) (timeout : Option Int)
    (st : CheckCache) (fuel : Nat) (r : Except PyError RawMessage)
    (st2 : CheckCache) (evs : List Event) (id : Nat)
    (h : wait_for_message net clock fid f email timeout st fuel
      = some (r, st2, evs)) :
    evs.countP (isEvalKey email fid id) ≤ 1
    ∧ (cacheInd st (email, id, fid) = 1 →
        evs.countP (isEvalKey email fid id) = 0) := by
  unfold wait_for_message at h
  cases hsp : splitUnpack2 email with
  | error e =>
    rw [hsp] at h
    simp only [] at h
    simp only [Option.some.injEq, Prod.mk.injEq] at h
    obtain ⟨_, _, hevs⟩ := h
    subst hevs
    simp
  | ok p =>
    obtain ⟨u, d⟩ := p
    rw [hsp] at h
    simp only [] at h
    by_cases hd : d ∈ DOMAINS
    · rw [if_pos hd] at h
      have hw := wait_loop_once net clock fid f email u d timeout _
        fuel 0 st r st2 evs h id
      have hle := cacheInd_le_one st2 (email, id, fid)
      exact ⟨by have := hw.2; omega, fun hc => by have := hw.2; omega⟩
    · rw [if_neg hd] at h
      simp only [Option.some.injEq, Prod.mk.injEq] at h
      obtain ⟨_, _, hevs⟩ := h
      subst hevs
      simp

/-- Closed instance of claim C9: the same run evaluates the filter on
message 1 exactly once. -/
theorem claim_C9_witness :
    wait_for_message netOne clockId 0 (fun _ => true) "user@1secmail.com"
        (some 10) [] 3
      = some (.ok rawMsg1,
          [(("user@1secmail.com", 1, 0), (true, rawMsg1))],
          [.netGetMessages "user" "1secmail.com",
           .netReadMessage "user" "1secmail.com" 1,
           .evalFilter 0 "user@1secmail.com" 1])
    ∧ List.countP (isEvalKey "user@1secmail.com" 0 1)
        [.netGetMessages "user" "1secmail.com",
         .netReadMessage "user" "1secmail.com" 1,
         .evalFilter 0 "user@1secmail.com" 1] ≤ 1 :=
  ⟨by rfl,
   (claim_C9 netOne clockId 0 (fun _ => true) "user@1secmail.com"
      (some 10) [] 3 (.ok rawMsg1)
      [(("user@1secmail.com", 1, 0), (true, rawMsg1))]
      [.netGetMessages "user" "1secmail.com",
       .netReadMessage "user" "1secmail.com" 1,
       .evalFilter 0 "user@1secmail.com" 1] 1 (by rfl)).1⟩

/-!  Resolution lemmas: on a validated email, `_check_message` answers
exactly what `resolveCheck` reads off the cache-or-network, and it never
changes any already-determined answer; hence one scan of a listing returns
the first entry whose resolved message satisfies the filter. -/

theorem check_message_resolve (net : Net) (fid : Nat)
    (f : RawMessage → Bool) (email u d : String) (id : Nat)
    (st : CheckCache) (hsplit : splitUnpack2 email = .ok (u, d))
    (hd : d ∈ DOMAINS) :
    (check_message net fid f email id st).1
      = .ok (resolveCheck net fid f email u d st id)
    ∧ (∀ j, resolveCheck net fid f email u d
          (check_message net fid f email id st).2.1 j
        = resolveCheck net fid f email u d st j)
    ∧ (check_message net fid f email id st).2.2.countP isPoll = 0
    ∧ (check_message net fid f email id st).2.2.countP isSleep = 0 := by
  unfold check_message
  cases hl : alookup st (email, id, fid) with
  | some r => simp [hl, resolveCheck]
  | none =>
    have hmsg : get_message net email id
        = (.ok (net.readMessage u d id), [.netReadMessage u d id]) := by
      simp [get_message, hsplit, hd]
    simp only [hl, hmsg]
    refine ⟨by simp [resolveCheck, hl], ?_,
      by simp [List.countP_cons, isPoll],
      by simp [List.countP_cons, isSleep]⟩
    intro j
    unfold resolveCheck
    rw [alookup_cons]
    by_cases hj : j = id
    · subst hj
      rw [if_pos rfl]
      simp [hl]
    · rw [if_neg (by simp only [Prod.mk.injEq, not_and]; intro _ h _; exact hj h.symm)]

/-- One scan of a listing on a validated email: answers are preserved, the
outcome is determined by the first entry whose resolved message passes the
filter, and the scan itself performs no inbox poll and no sleep. -/
theorem scan_listing_resolve (net : Net) (fid : Nat)
    (f : RawMessage → Bool) (email u d : String)
    (hsplit : splitUnpack2 email = .ok (u, d)) (hd : d ∈ DOMAINS)
    (l : List RawMsgInfo) (st : CheckCache) :
    (∀ j, resolveCheck net fid f email u d
        (scan_listing net fid f email l st).2.1 j
      = resolveCheck net fid f email u d st j)
    ∧ (scan_listing net fid f email l st).1
      = (l.find? fun mi =>
            (resolveCheck net fid f email u d st mi.id).1).map
          (fun mi => .ok (resolveCheck net fid f email u d st mi.id).2)
    ∧ (scan_listing net fid f email l st).2.2.countP isPoll = 0
    ∧ (scan_listing net fid f email l st).2.2.countP isSleep = 0 := by
  induction l generalizing st with
  | nil => simp [scan_listing]
  | cons mi rest ih =>
    have hres := check_message_resolve net fid f email u d mi.id st
      hsplit hd
    rcases hcm : check_message net fid f email mi.id st with ⟨cr, st1, evs1⟩
    rw [hcm] at hres
    dsimp only at hres
    obtain ⟨hcr, hpres, hp1, hs1⟩ := hres
    subst hcr
    by_cases hstat : (resolveCheck net fid f email u d st mi.id).1 = true
    · simp only [scan_listing, hcm, hstat, if_pos]
      refine ⟨hpres, ?_, hp1, hs1⟩
      rw [List.find?_cons]
      simp [hstat]
    · have hih := ih st1
      rcases hsc : scan_listing net fid f email rest st1
        with ⟨r2, st2, evs2⟩
      rw [hsc] at hih
      dsimp only at hih
      obtain ⟨hpres2, hval2, hp2, hs2⟩ := hih
      have hpredeq : (fun mj : RawMsgInfo =>
          (resolveCheck net fid f email u d st1 mj.id).1)
          = (fun mj : RawMsgInfo =>
          (resolveCheck net fid f email u d st mj.id).1) := by
        funext mj
        rw [hpres mj.id]
      rw [hpredeq] at hval2
      have hmapeq : ∀ mj : RawMsgInfo,
          (Except.ok (resolveCheck net fid f email u d st1 mj.id).2 :
            Except PyError RawMessage)
          = .ok (resolveCheck net fid f email u d st mj.id).2 := by
        intro mj
        rw [hpres mj.id]
      simp only [scan_listing, hcm, hstat, Bool.false_eq_true, if_false,
        hsc]
      refine ⟨fun j => by rw [hpres2 j, hpres j], ?_,
        by simp [List.countP_append, hp1, hp2],
        by simp [List.countP_append, hs1, hs2]⟩
      rw [List.find?_cons]
      simp only [hstat]
      rw [hval2]
      cases hfind : rest.find? (fun mj =>
          (resolveCheck net fid f email u d st mj.id).1) with
      | none => simp
      | some mj => simp [hmapeq mj]

theorem osm_get_message_resolve (net : Net) (m : OneSecMail)
    (st : MsgCache) (id : Nat) :
    (OneSecMail.get_message net m st id).1 = resolveMsg net m st id
    ∧ (∀ j, resolveMsg net m (OneSecMail.get_message net m st id).2.1 j
        = resolveMsg net m st j)
    ∧ (OneSecMail.get_message net m st id).2.2.countP isPoll = 0
    ∧ (OneSecMail.get_message net m st id).2.2.countP isSleep = 0 := by
  unfold OneSecMail.get_message resolveMsg
  by_cases h : id ∈ st
  · rw [if_pos h]
    exact ⟨rfl, fun j => rfl, rfl, rfl⟩
  · rw [if_neg h]
    exact ⟨rfl, fun j => rfl,
      by simp [List.countP_cons, isPoll],
      by simp [List.countP_cons, isSleep]⟩

/-- One pass of the `OneSecMail` inner loop on a listing: answers are
preserved, the outcome is the first summary whose resolved full message
passes the filter, and the scan performs no inbox poll and no sleep. -/
theorem osm_scan_inbox_resolve (net : Net) (m : OneSecMail)
    (f : Message → Bool) (l : List MessageInfo) (st : MsgCache) :
    (∀ j, resolveMsg net m (OneSecMail.scan_inbox net m f l st).2.1 j
      = resolveMsg net m st j)
    ∧ (OneSecMail.scan_inbox net m f l st).1
      = (l.find? fun mi => f (resolveMsg net m st mi.id)).map
          (fun mi => resolveMsg net m st mi.id)
    ∧ (OneSecMail.scan_inbox net m f l st).2.2.countP isPoll = 0
    ∧ (OneSecMail.scan_inbox net m f l st).2.2.countP isSleep = 0 := by
  induction l generalizing st with
  | nil => simp [OneSecMail.scan_inbox]
  | cons mi rest ih =>
    have hres := osm_get_message_resolve net m st mi.id
    rcases hg1 : OneSecMail.get_message net m st mi.id with ⟨msg, st1, evs1⟩
    rw [hg1] at hres
    dsimp only at hres
    obtain ⟨hmsg, hpres, hp1, hs1⟩ := hres
    subst hmsg
    by_cases hf : f (resolveMsg net m st mi.id) = true
    · have hres2 := osm_get_message_resolve net m st1 mi.id
      rcases hg2 : OneSecMail.get_message net m st1 mi.id
        with ⟨msg2, st2, evs2⟩
      rw [hg2] at hres2
      dsimp only at hres2
      obtain ⟨hmsg2, hpres2, hp2, hs2⟩ := hres2
      subst hmsg2
      simp only [OneSecMail.scan_inbox, hg1, hf, if_pos, hg2]
      refine ⟨fun j => by rw [hpres2 j, hpres j], ?_,
        by simp [List.countP_append, hp1, hp2],
        by simp [List.countP_append, hs1, hs2]⟩
      rw [List.find?_cons]
      simp only [hf]
      simp [hpres mi.id]
    · have hih := ih st1
      rcases hsc : OneSecMail.scan_inbox net m f rest st1
        with ⟨r2, st2, evs2⟩
      rw [hsc] at hih
      dsimp only at hih
      obtain ⟨hpres2, hval2, hp2, hs2⟩ := hih
      have hpredeq : (fun mj : MessageInfo =>
          f (resolveMsg net m st1 mj.id))
          = (fun mj : MessageInfo => f (resolveMsg net m st mj.id)) := by
        funext mj
        rw [hpres mj.id]
      rw [hpredeq] at hval2
      simp only [OneSecMail.scan_inbox, hg1, hf, Bool.false_eq_true,
        if_false, hsc]
      refine ⟨fun j => by rw [hpres2 j, hpres j], ?_,
        by simp [List.countP_append, hp1, hp2],
        by simp [List.countP_append, hs1, hs2]⟩
      rw [List.find?_cons]
      simp only [hf]
      rw [hval2]
      cases hfind : rest.find? (fun mj =>
          f (resolveMsg net m st mj.id)) with
      | none => simp
      | some mj => simp [hpres mj.id]

/-- If the loop condition holds and some listed message of the first poll
passes the filter, the module-level loop returns at once: the first
matching message, one inbox GET, no sleep. -/
theorem wait_loop_first_match (net : Net) (clock : Nat → Int) (fid : Nat)
    (f : RawMessage → Bool) (email u d : String)
    (timeout timeout_time : Option Int) (fuel : Nat) (st : CheckCache)
    (mi : RawMsgInfo)
    (hsplit : splitUnpack2 email = .ok (u, d)) (hd : d ∈ DOMAINS)
    (hcond : loop_cond clock timeout timeout_time 0 = .ok true)
    (hfind : (net.getMessages u d 0).find?
        (fun entry => (resolveCheck net fid f email u d st entry.id).1)
      = some mi) :
    ∃ st2 evs,
      wait_loop net clock fid f email u d timeout timeout_time 0
          (fuel + 1) st
        = some (.ok (resolveCheck net fid f email u d st mi.id).2, st2,
            evs)
      ∧ evs.countP isPoll = 1 ∧ evs.countP isSleep = 0 := by
  have hres := scan_listing_resolve net fid f email u d hsplit hd
    (net.getMessages u d 0) st
  rcases hscan : scan_listing net fid f email (net.getMessages u d 0) st
    with ⟨ropt, st1, evs1⟩
  rw [hscan] at hres
  dsimp only at hres
  obtain ⟨hpres, hval, hp1, hs1⟩ := hres
  rw [hfind] at hval
  simp only [Option.map_some'] at hval
  subst hval
  refine ⟨st1, Event.netGetMessages u d :: evs1, ?_, ?_, ?_⟩
  · unfold wait_loop
    rw [hcond]
    simp only []
    rw [hscan]
  · simp [List.countP_cons, isPoll, hp1]
  · simp [List.countP_cons, isSleep, hs1]

/-- Same for the `OneSecMail` loop. -/
theorem osm_wait_loop_first_match (net : Net) (clock : Nat → Int)
    (m : OneSecMail) (g : Message → Bool) (timeout_time : Option Int)
    (fuel : Nat) (mst : MsgCache) (mj : MessageInfo)
    (hcond : osm_loop_cond clock timeout_time 0 = true)
    (hfind : (OneSecMail.get_inbox net m 0).1.find?
        (fun entry => g (resolveMsg net m mst entry.id)) = some mj) :
    ∃ mst2 evs2,
      OneSecMail.wait_loop net clock m g timeout_time 0 (fuel + 1) mst
        = some (.ok (resolveMsg net m mst mj.id), mst2, evs2)
      ∧ evs2.countP isPoll = 1 ∧ evs2.countP isSleep = 0 := by
  have hres := osm_scan_inbox_resolve net m g
    (OneSecMail.get_inbox net m 0).1 mst
  rcases hscan : OneSecMail.scan_inbox net m g
      (OneSecMail.get_inbox net m 0).1 mst with ⟨ropt, mst1, evs1⟩
  rw [hscan] at hres
  dsimp only at hres
  obtain ⟨hpres, hval, hp1, hs1⟩ := hres
  rw [hfind] at hval
  simp only [Option.map_some'] at hval
  subst hval
  refine ⟨mst1, Event.netGetMessages m.username m.domain :: evs1,
    ?_, ?_, ?_⟩
  · unfold OneSecMail.wait_loop
    rw [if_pos hcond]
    rw [hscan]
  · simp [List.countP_cons, isPoll, hp1]
  · simp [List.countP_cons, isSleep, hs1]

/-- Claim C6: a wait call (module-level or `OneSecMail`) with an absent or
positive timeout whose filter accepts some message of the first poll's
listing returns the first listed message the filter accepts, after exactly
one inbox listing and no sleep. -/
theorem claim_C6 (net : Net) (clock : Nat → Int) (fid : Nat)
    (f : RawMessage → Bool) (email u d : String) (timeout : Option Int)
    (st : CheckCache) (fuel : Nat) (mi : RawMsgInfo) (m : OneSecMail)
    (g : Message → Bool) (timeout2 : Option Int) (mst : MsgCache)
    (fuel2 : Nat) (mj : MessageInfo)
    (hsplit : splitUnpack2 email = .ok (u, d)) (hd : d ∈ DOMAINS)
    (htime : timeout = none
      ∨ ∃ t, timeout = some t ∧ t ≠ 0 ∧ clock 1 < clock 0 + t)
    (hfind : (net.getMessages u d 0).find?
        (fun entry => (resolveCheck net fid f email u d st entry.id).1)
      = some mi)
    (htime2 : timeout2 = none
      ∨ ∃ t, timeout2 = some t ∧ clock 1 < clock 0 + t)
    (hfind2 : (OneSecMail.get_inbox net m 0).1.find?
        (fun entry => g (resolveMsg net m mst entry.id)) = some mj) :
    (∃ st2 evs,
      wait_for_message net clock fid f email timeout st (fuel + 1)
        = some (.ok (resolveCheck net fid f email u d st mi.id).2, st2,
            evs)
      ∧ evs.countP isPoll = 1 ∧ evs.countP isSleep = 0)
    ∧ (∃ mst2 evs2,
      OneSecMail.wait_for_message net clock m g timeout2 mst (fuel2 + 1)
        = some (.ok (resolveMsg net m mst mj.id), mst2, evs2)
      ∧ evs2.countP isPoll = 1 ∧ evs2.countP isSleep = 0) := by
  constructor
  · rcases htime with h0 | ⟨t, ht, htz, hlt⟩
    · subst h0
      unfold wait_for_message
      rw [hsplit]
      simp only []
      rw [if_pos hd]
      exact wait_loop_first_match net clock fid f email u d none none
        fuel st mi hsplit hd rfl hfind
    · subst ht
      unfold wait_for_message
      rw [hsplit]
      simp only []
      rw [if_pos hd]
      refine wait_loop_first_match net clock fid f email u d (some t)
        (if t = 0 then none else some (clock 0 + t)) fuel st mi hsplit hd
        ?_ hfind
      rw [if_neg htz]
      simp [loop_cond, hlt]
  · rcases htime2 with h0 | ⟨t, ht, hlt⟩
    · subst h0
      unfold OneSecMail.wait_for_message
      exact osm_wait_loop_first_match net clock m g none fuel2 mst mj rfl
        hfind2
    · subst ht
      unfold OneSecMail.wait_for_message
      refine osm_wait_loop_first_match net clock m g (some (clock 0 + t))
        fuel2 mst mj ?_ hfind2
      simp [osm_loop_cond, hlt]

/-- Closed instance of claim C6: with the server always listing message 1
and an always-true filter, both wait calls return message 1 after one
listing and no sleep. -/
theorem claim_C6_witness :
    (∃ st2 evs,
      wait_for_message netOne clockId 0 (fun _ => true)
          "user@1secmail.com" (some 10) [] (2 + 1)
        = some (.ok (resolveCheck netOne 0 (fun _ => true)
              "user@1secmail.com" "user" "1secmail.com" [] rawInfo1.id).2,
            st2, evs)
      ∧ evs.countP isPoll = 1 ∧ evs.countP isSleep = 0)
    ∧ (∃ mst2 evs2,
      OneSecMail.wait_for_message netOne clockId ⟨"user", "1secmail.com"⟩
          (fun _ => true) (some 10) [] (2 + 1)
        = some (.ok (resolveMsg netOne ⟨"user", "1secmail.com"⟩ []
              rawInfo1.id), mst2, evs2)
      ∧ evs2.countP isPoll = 1 ∧ evs2.countP isSleep = 0) :=
  claim_C6 netOne clockId 0 (fun _ => true) "user@1secmail.com" "user"
    "1secmail.com" (some 10) [] 2 rawInfo1 ⟨"user", "1secmail.com"⟩
    (fun _ => true) (some 10) [] 2 (MessageInfo.from_dict rawInfo1)
    (by rfl) (by decide)
    (.inr ⟨10, rfl, by decide, by decide⟩)
    (by rfl)
    (.inr ⟨10, rfl, by decide⟩)
    (by rfl)

/-- Closed instance of claim C10: with an index oracle that always picks
0, the generated local part is "aaaaaaaaaa", of length 10. -/
theorem claim_C10_witness :
    OneSecMail.init DOMAINS (fun _ => 0) 0 none none (some "1secmail.com")
      = .ok ⟨"aaaaaaaaaa", "1secmail.com"⟩
    ∧ (random_string (fun _ => 0) 10).length = 10
    ∧ (⟨"aaaaaaaaaa", "1secmail.com"⟩ : OneSecMail).username
      = random_string (fun _ => 0) 10 :=
  ⟨by rfl,
   (claim_C10 (fun _ => 0) 10 0 none (some "1secmail.com") DOMAINS 0
      ⟨"aaaaaaaaaa", "1secmail.com"⟩ (by rfl)).1,
   (claim_C10 (fun _ => 0) 10 0 none (some "1secmail.com") DOMAINS 0
      ⟨"aaaaaaaaaa", "1secmail.com"⟩ (by rfl)).2.2.2.2⟩

end Tempmail
